import Mathlib

/-!
Shallow embedding of the Package-Stalker core: status normalizer
(mapTrack123Status), Track123 resolver (instantTrack), local-storage
repository (saveTracking / getTrackings / rehydrateTracking), and the
analytics aggregator (getMonthlyStats / getCourierDistribution).
JavaScript numbers that only ever hold integers are modelled as Nat/Int;
the float arithmetic of Math.round over small integer divisions is
modelled exactly over the rationals.
-/

/-- Calendar date-time modelling a JavaScript Date at millisecond
precision. The field `year` models getFullYear and `month` models the
zero-based getMonth; an in-range Date has `month < 12`. -/
structure DateTime where
  year : Nat
  month : Nat
  day : Nat
  hour : Nat
  minute : Nat
  second : Nat
  millisecond : Nat
deriving DecidableEq

/-- Little-endian base-10 digits with explicit fuel, so the definition is
structurally recursive and reduces inside the kernel. -/
def digitsFuel : Nat → Nat → List Nat
  | 0, _ => []
  | _ + 1, 0 => []
  | f + 1, n + 1 => (n + 1) % 10 :: digitsFuel f ((n + 1) / 10)

/-- Little-endian decimal digits of a natural number (empty for zero). -/
def natDigitsLE (n : Nat) : List Nat := digitsFuel n n

/-- Value of a little-endian digit list. -/
def ofDigitsLE : List Nat → Nat
  | [] => 0
  | d :: ds => d + 10 * ofDigitsLE ds

theorem ofDigitsLE_digitsFuel : ∀ (f n : Nat), n ≤ f → ofDigitsLE (digitsFuel f n) = n := by
  intro f
  induction f with
  | zero =>
    intro n hn
    have : n = 0 := Nat.le_zero.mp hn
    subst this
    rfl
  | succ f ih =>
    intro n hn
    match n with
    | 0 => rfl
    | n + 1 =>
      have hlt : (n + 1) / 10 < n + 1 := Nat.div_lt_self (Nat.succ_pos n) (by norm_num)
      have hdiv : (n + 1) / 10 ≤ f := by omega
      simp only [digitsFuel, ofDigitsLE, ih _ hdiv]
      omega

theorem natDigitsLE_inj {m n : Nat} (h : natDigitsLE m = natDigitsLE n) : m = n := by
  have hm := ofDigitsLE_digitsFuel m m (Nat.le_refl m)
  have hn := ofDigitsLE_digitsFuel n n (Nat.le_refl n)
  unfold natDigitsLE at h
  rw [← hm, ← hn, h]

theorem digitsFuel_lt_ten : ∀ (f n : Nat), ∀ d ∈ digitsFuel f n, d < 10 := by
  intro f
  induction f with
  | zero => intro n d hd; simp [digitsFuel] at hd
  | succ f ih =>
    intro n d hd
    match n with
    | 0 => simp [digitsFuel] at hd
    | n + 1 =>
      simp only [digitsFuel, List.mem_cons] at hd
      rcases hd with h | h
      · subst h; exact Nat.mod_lt _ (by norm_num)
      · exact ih _ d h

/-- Decimal rendering of a natural number, modelling the JavaScript
template interpolation of an integer-valued number. -/
def natToString (n : Nat) : String :=
  if n = 0 then "0" else String.mk (((natDigitsLE n).map Nat.digitChar).reverse)

/-- Decimal value of a decimal digit character. -/
def charVal (c : Char) : Nat := c.toNat - 48

theorem charVal_digitChar {d : Nat} (h : d < 10) : charVal (Nat.digitChar d) = d := by
  interval_cases d <;> rfl

theorem map_charVal_map_digitChar (ds : List Nat) (h : ∀ d ∈ ds, d < 10) :
    (ds.map Nat.digitChar).map charVal = ds := by
  induction ds with
  | nil => rfl
  | cons d ds ih =>
    simp only [List.map_cons, List.cons.injEq]
    exact ⟨charVal_digitChar (h d (List.mem_cons_self d ds)),
      ih fun x hx => h x (List.mem_cons_of_mem d hx)⟩

theorem digitChar_ne_dash {d : Nat} (h : d < 10) : Nat.digitChar d ≠ '-' := by
  interval_cases d <;> decide

theorem natDigitsLE_lt_ten (n : Nat) : ∀ d ∈ natDigitsLE n, d < 10 :=
  digitsFuel_lt_ten n n

theorem natToString_ne_dash (n : Nat) : ∀ c ∈ (natToString n).data, c ≠ '-' := by
  by_cases h : n = 0
  · subst h
    intro c hc
    have h0 : (natToString 0).data = [Char.ofNat 48] := rfl
    rw [h0] at hc
    simp only [List.mem_singleton] at hc
    subst hc; decide
  · intro c hc
    have he : natToString n = String.mk (((natDigitsLE n).map Nat.digitChar).reverse) := by
      unfold natToString; rw [if_neg h]
    rw [he] at hc
    have hc' : c ∈ ((natDigitsLE n).map Nat.digitChar).reverse := hc
    rw [List.mem_reverse] at hc'
    rcases List.mem_map.mp hc' with ⟨d, hd, rfl⟩
    exact digitChar_ne_dash (natDigitsLE_lt_ten n d hd)

theorem natToString_inj {m n : Nat} (h : natToString m = natToString n) : m = n := by
  unfold natToString at h
  by_cases hm : m = 0 <;> by_cases hn : n = 0
  · omega
  · exfalso
    rw [if_pos hm, if_neg hn] at h
    have hdata : ("0" : String).data = (((natDigitsLE n).map Nat.digitChar).reverse) := by
      rw [h]
    have : ((natDigitsLE n).map Nat.digitChar).reverse = [Nat.digitChar 0] := by
      rw [← hdata]; rfl
    have h1 : (natDigitsLE n).map Nat.digitChar = [Nat.digitChar 0] := by
      have := congrArg List.reverse this
      simpa using this
    have h2 : natDigitsLE n = [0] := by
      have := congrArg (List.map charVal) h1
      rw [map_charVal_map_digitChar _ (natDigitsLE_lt_ten n)] at this
      simpa [charVal] using this
    have := ofDigitsLE_digitsFuel n n (Nat.le_refl n)
    unfold natDigitsLE at h2
    rw [h2] at this
    simp [ofDigitsLE] at this
    omega
  · exfalso
    rw [if_neg hm, if_pos hn] at h
    have hdata : (((natDigitsLE m).map Nat.digitChar).reverse) = ("0" : String).data := by
      rw [← h]
    have : ((natDigitsLE m).map Nat.digitChar).reverse = [Nat.digitChar 0] := by
      rw [hdata]; rfl
    have h1 : (natDigitsLE m).map Nat.digitChar = [Nat.digitChar 0] := by
      have := congrArg List.reverse this
      simpa using this
    have h2 : natDigitsLE m = [0] := by
      have := congrArg (List.map charVal) h1
      rw [map_charVal_map_digitChar _ (natDigitsLE_lt_ten m)] at this
      simpa [charVal] using this
    have := ofDigitsLE_digitsFuel m m (Nat.le_refl m)
    unfold natDigitsLE at h2
    rw [h2] at this
    simp [ofDigitsLE] at this
    omega
  · rw [if_neg hm, if_neg hn] at h
    have hdata : (((natDigitsLE m).map Nat.digitChar).reverse) =
        (((natDigitsLE n).map Nat.digitChar).reverse) := congrArg String.data h
    have h1 := List.reverse_injective hdata
    have h2 := congrArg (List.map charVal) h1
    rw [map_charVal_map_digitChar _ (natDigitsLE_lt_ten m),
      map_charVal_map_digitChar _ (natDigitsLE_lt_ten n)] at h2
    exact natDigitsLE_inj h2

/-- Models String.prototype.padStart(2, zero character), as used by the
month formatter. -/
def padStart2 (s : String) : String :=
  if s.length ≥ 2 then s
  else String.mk (List.replicate (2 - s.length) (Char.ofNat 48) ++ s.data)

/-- The YYYY-MM month key of a calendar year and zero-based month: the
template of AnalyticsService.formatMonth. -/
def formatMonthOf (year month : Nat) : String :=
  natToString year ++ "-" ++ padStart2 (natToString (month + 1))

/-- AnalyticsService.formatMonth applied to a date. -/
def formatMonth (d : DateTime) : String := formatMonthOf d.year d.month

theorem append_dash_inj :
    ∀ (A A' r r' : List Char), (∀ c ∈ A, c ≠ '-') → (∀ c ∈ A', c ≠ '-') →
      A ++ '-' :: r = A' ++ '-' :: r' → A = A' ∧ r = r' := by
  intro A
  induction A with
  | nil =>
    intro A' r r' _ hA' h
    match A' with
    | [] => simp only [List.nil_append] at h; exact ⟨rfl, (List.cons.injEq _ _ _ _ ▸ h).2⟩
    | c :: A'' =>
      exfalso
      simp only [List.nil_append, List.cons_append, List.cons.injEq] at h
      exact hA' c (List.mem_cons_self c A'') h.1.symm
  | cons a A ih =>
    intro A' r r' hA hA' h
    match A' with
    | [] =>
      exfalso
      simp only [List.cons_append, List.nil_append, List.cons.injEq] at h
      exact hA a (List.mem_cons_self a A) h.1
    | c :: A'' =>
      simp only [List.cons_append, List.cons.injEq] at h
      obtain ⟨rfl, h2⟩ := h
      have := ih A'' r r' (fun x hx => hA x (List.mem_cons_of_mem a hx))
        (fun x hx => hA' x (List.mem_cons_of_mem a hx)) h2
      exact ⟨by rw [this.1], this.2⟩

theorem padMonth_inj :
    ∀ a : Fin 12, ∀ b : Fin 12,
      padStart2 (natToString (a.1 + 1)) = padStart2 (natToString (b.1 + 1)) → a = b := by
  decide

theorem formatMonthOf_inj {y y' mo mo' : Nat} (h12 : mo < 12) (h12' : mo' < 12)
    (h : formatMonthOf y mo = formatMonthOf y' mo') : y = y' ∧ mo = mo' := by
  unfold formatMonthOf at h
  have hdata := congrArg String.data h
  rw [String.data_append, String.data_append, String.data_append, String.data_append] at hdata
  have hdash : ("-" : String).data = ['-'] := rfl
  rw [hdash] at hdata
  simp only [List.append_assoc, List.cons_append, List.nil_append] at hdata
  have hsplit := append_dash_inj _ _ _ _ (natToString_ne_dash y) (natToString_ne_dash y') hdata
  constructor
  · exact natToString_inj (String.ext hsplit.1)
  · have hp : padStart2 (natToString (mo + 1)) = padStart2 (natToString (mo' + 1)) :=
      String.ext hsplit.2
    exact congrArg Fin.val (padMonth_inj ⟨mo, h12⟩ ⟨mo', h12'⟩ hp)

/-! ## Domain model (src/domain/types.ts) -/

/-- The closed DeliveryStatus enumeration from the domain types. -/
inductive DeliveryStatus where
  | pending
  | info_received
  | in_transit
  | out_for_delivery
  | delivered
  | exception
  | failed_attempt
  | expired
  | unknown
deriving DecidableEq

/-- Carrier metadata from the domain types. -/
structure Carrier where
  code : String
  name : String
  logo : Option String := none
  trackingUrl : Option String := none
deriving DecidableEq

/-- A timeline event owned by a Tracking. -/
structure TrackingEvent where
  timestamp : DateTime
  location : String
  description : String
  status : DeliveryStatus
deriving DecidableEq

/-- The main Tracking entity. Optional JavaScript fields are Options;
`transitDays` is a carrier-supplied integer count of days. -/
structure Tracking where
  id : String
  trackingNumber : String
  nickname : String
  carrier : Carrier
  status : DeliveryStatus
  events : List TrackingEvent
  estimatedDelivery : Option DateTime := none
  transitDays : Option Int := none
  createdAt : DateTime
  updatedAt : DateTime
deriving DecidableEq

/-- Factory createTracking from the domain types, with the nondeterministic
crypto.randomUUID() and new Date() supplied as explicit arguments
`freshId` and `now`. A falsy (absent or empty) nickname defaults to the
tracking number; an absent status defaults to pending. -/
def createTracking (freshId : String) (now : DateTime) (trackingNumber : String)
    (nickname : Option String) (carrier : Carrier) (status : Option DeliveryStatus)
    (events : Option (List TrackingEvent)) (transitDays : Option Int) : Tracking :=
  { id := freshId
    trackingNumber := trackingNumber
    nickname := match nickname with
      | some s => if s = "" then trackingNumber else s
      | none => trackingNumber
    carrier := carrier
    status := status.getD DeliveryStatus.pending
    events := events.getD []
    estimatedDelivery := none
    transitDays := transitDays
    createdAt := now
    updatedAt := now }

/-! ## Status normalizer (mapTrack123Status, Track123 service) -/

/-- The fixed status table of mapTrack123Status. -/
def statusTable : List (String × DeliveryStatus) :=
  [("PENDING", DeliveryStatus.pending),
   ("NO_FOUND", DeliveryStatus.pending),
   ("INFO_RECEIVED", DeliveryStatus.info_received),
   ("IN_TRANSIT", DeliveryStatus.in_transit),
   ("OUT_FOR_DELIVERY", DeliveryStatus.out_for_delivery),
   ("DELIVERED", DeliveryStatus.delivered),
   ("EXCEPTION", DeliveryStatus.exception),
   ("FAILED_ATTEMPT", DeliveryStatus.failed_attempt),
   ("EXPIRED", DeliveryStatus.expired)]

/-- JavaScript String.prototype.toUpperCase on the inputs involved,
modelled characterwise so it evaluates in the kernel. -/
def jsToUpper (s : String) : String := String.mk (s.data.map Char.toUpper)

/-- Lookup in the fixed status table (the JS object index
statusMap of the uppercased status). -/
def statusLookup (key : String) : List (String × DeliveryStatus) → Option DeliveryStatus
  | [] => none
  | (k, v) :: rest => if k = key then some v else statusLookup key rest

/-- mapTrack123Status: absent or empty (falsy) input is pending; otherwise
the uppercased input is looked up in the fixed table, defaulting to
unknown. -/
def mapTrack123Status (status : Option String) : DeliveryStatus :=
  match status with
  | none => DeliveryStatus.pending
  | some s =>
    if s = "" then DeliveryStatus.pending
    else (statusLookup (jsToUpper s) statusTable).getD DeliveryStatus.unknown

/-! ## Track123 resolver (Track123Service.instantTrack) -/

/-- Raw tracking event payload from the gateway. -/
structure TrackingDetail where
  eventTime : String
  eventDetail : String
  location : Option String := none
  transitSubStatus : Option String := none
deriving DecidableEq

/-- Raw logistics block from the gateway. -/
structure LocalLogisticsInfo where
  courierCode : String
  courierNameEN : String
  trackingDetails : Option (List TrackingDetail) := none
deriving DecidableEq

/-- Raw tracking payload from the gateway query. -/
structure TrackingContent where
  trackNo : String
  transitStatus : String
  transitDays : Option Int := none
  localLogisticsInfo : Option LocalLogisticsInfo := none
deriving DecidableEq

/-- Ambient JavaScript effects used by mapToTracking: the stream of
crypto.randomUUID() values (indexed by call order within one query), the
current time, and Date-string parsing. -/
structure JsEnv where
  genId : Nat → String
  now : DateTime
  parseDate : String → DateTime

/-- Track123Service.mapToTracking: normalizes one raw gateway payload into
a Tracking, mapping carrier fields with JavaScript falsy defaulting and
event statuses through the normalizer. -/
def mapToTracking (env : JsEnv) (idx : Nat) (data : TrackingContent) : Tracking :=
  let carrierCode : String :=
    match data.localLogisticsInfo with
    | some l => if l.courierCode = "" then "unknown" else l.courierCode
    | none => "unknown"
  let carrierName : String :=
    match data.localLogisticsInfo with
    | some l =>
      if l.courierNameEN = "" then
        (if l.courierCode = "" then "Unknown" else l.courierCode)
      else l.courierNameEN
    | none => "Unknown"
  let carrier : Carrier := { code := carrierCode, name := carrierName }
  let status := mapTrack123Status (some data.transitStatus)
  let rawDetails : List TrackingDetail :=
    match data.localLogisticsInfo with
    | some l => l.trackingDetails.getD []
    | none => []
  let events : List TrackingEvent := rawDetails.map fun evt =>
    { timestamp := env.parseDate evt.eventTime
      location := match evt.location with
        | some s => s
        | none => ""
      description := evt.eventDetail
      status := mapTrack123Status evt.transitSubStatus }
  createTracking (env.genId idx) env.now data.trackNo (some data.trackNo) carrier
    (some status) (some events) data.transitDays

/-- One call to Track123Service.getTrackings is a gateway interaction that
either throws (transport failure) or yields a list of raw payloads (an
unsuccessful response code yields the empty list). -/
def serviceQuery (env : JsEnv) (raw : Except String (List TrackingContent)) :
    Except String (List Tracking) :=
  match raw with
  | Except.error e => Except.error e
  | Except.ok content => Except.ok ((content.enum).map fun p => mapToTracking env p.1 p.2)

/-- The externally observable behavior of the gateway during one
instantTrack run: the outcome of the first query, of the registration
call, and of the re-query. -/
structure GatewayBehavior where
  firstQuery : Except String (List TrackingContent)
  registerResult : Except String Unit
  secondQuery : Except String (List TrackingContent)

/-- Trace of gateway interactions performed by one instantTrack run. -/
structure TrackTrace where
  queries : Nat
  registerCalls : Nat
  waits : Nat
deriving DecidableEq

/-- The nickname override at the end of instantTrack: a truthy nickname
replaces the Tracking nickname. -/
def applyNick (t : Tracking) (nickname : Option String) : Tracking :=
  match nickname with
  | some n => if n = "" then t else { t with nickname := n }
  | none => t

/-- The common tail of instantTrack: return the first match with the
nickname override applied, or throw the not-found error. -/
def finishTrack (ts : List Tracking) (nickname : Option String) (trace : TrackTrace) :
    Except String Tracking × TrackTrace :=
  match ts with
  | t :: _ => (Except.ok (applyNick t nickname), trace)
  | [] => (Except.error "Tracking info not found", trace)

/-- Track123Service.instantTrack: query; if no match, try
register-wait-requery inside one try/catch whose failure is logged and
swallowed (leaving the first query's empty result in place); finally
return the first match (with nickname override) or throw the not-found
error. The trace records how many queries, register calls and backoff
waits were performed; `trackingNumber` itself only flows into the gateway
calls, which the GatewayBehavior argument abstracts. -/
def instantTrack (gw : GatewayBehavior) (env1 env2 : JsEnv) (trackingNumber : String)
    (nickname : Option String) : Except String Tracking × TrackTrace :=
  match serviceQuery env1 gw.firstQuery with
  | Except.error e => (Except.error e, ⟨1, 0, 0⟩)
  | Except.ok ts1 =>
    if ts1.length = 0 then
      match gw.registerResult with
      | Except.error _ => finishTrack ts1 nickname ⟨1, 1, 0⟩
      | Except.ok _ =>
        match serviceQuery env2 gw.secondQuery with
        | Except.error _ => finishTrack ts1 nickname ⟨2, 1, 1⟩
        | Except.ok l => finishTrack l nickname ⟨2, 1, 1⟩
    else finishTrack ts1 nickname ⟨1, 0, 0⟩

/-! ## Local storage repository (src/services/storage.service.ts)

The backing store holds the JSON.stringify image of the tracking list.
JSON round-trips strings, integers and booleans exactly, serializes a
Date to its ISO string (which new Date reconstitutes to an equal Date)
and omits keys holding undefined; so the parsed stored shape is modelled
structurally, with Dates kept as DateTime values. -/

/-- Parsed JSON shape of one stored event. -/
structure StoredEvent where
  timestamp : DateTime
  location : String
  description : String
  status : DeliveryStatus
deriving DecidableEq

/-- Parsed JSON shape of one stored Tracking record. -/
structure StoredTracking where
  id : String
  trackingNumber : String
  nickname : String
  carrier : Carrier
  status : DeliveryStatus
  events : List StoredEvent
  estimatedDelivery : Option DateTime := none
  transitDays : Option Int := none
  createdAt : DateTime
  updatedAt : DateTime
deriving DecidableEq

/-- The JSON.stringify-then-parse image of a domain Tracking: every field
survives (a Date as its exactly reconstitutable ISO string, here kept as
the DateTime value; an undefined optional as an absent key). -/
def serializeTracking (t : Tracking) : StoredTracking :=
  { id := t.id
    trackingNumber := t.trackingNumber
    nickname := t.nickname
    carrier := t.carrier
    status := t.status
    events := t.events.map fun e =>
      { timestamp := e.timestamp
        location := e.location
        description := e.description
        status := e.status }
    estimatedDelivery := t.estimatedDelivery
    transitDays := t.transitDays
    createdAt := t.createdAt
    updatedAt := t.updatedAt }

/-- LocalStorageService.rehydrateTracking (storage.service.ts lines
96-117): rebuilds the record listing each field explicitly — id,
trackingNumber, nickname, carrier, status, events, estimatedDelivery,
createdAt, updatedAt. The source object literal contains no transitDays
key, so the rehydrated record has transitDays undefined. -/
def rehydrateTracking (d : StoredTracking) : Tracking :=
  { id := d.id
    trackingNumber := d.trackingNumber
    nickname := d.nickname
    carrier := d.carrier
    status := d.status
    events := d.events.map fun e =>
      { timestamp := e.timestamp
        location := e.location
        description := e.description
        status := e.status }
    estimatedDelivery := d.estimatedDelivery
    transitDays := none
    createdAt := d.createdAt
    updatedAt := d.updatedAt }

/-- Array.prototype.findIndex, returned as an Option instead of the -1
sentinel that the source immediately tests with >= 0. -/
def findIdxAux (p : Tracking → Bool) : List Tracking → Option Nat
  | [] => none
  | t :: ts => if p t then some 0 else (findIdxAux p ts).map (· + 1)

/-- The in-memory update step of LocalStorageService.saveTracking: find a
record with the same trackingNumber; replace it in place if found,
append otherwise. -/
def saveTracking (ts : List Tracking) (tr : Tracking) : List Tracking :=
  match findIdxAux (fun t => decide (t.trackingNumber = tr.trackingNumber)) ts with
  | some i => ts.set i tr
  | none => ts ++ [tr]

/-- Reading the whole store: parse (modelled structurally) and rehydrate
every record, as LocalStorageService.getTrackings does on success. -/
def readStore (store : List StoredTracking) : List Tracking :=
  store.map rehydrateTracking

/-- LocalStorageService.saveTracking end to end: read and rehydrate the
current store, upsert the new record, persist the serialized list. -/
def saveToStore (store : List StoredTracking) (t : Tracking) : List StoredTracking :=
  (saveTracking (readStore store) t).map serializeTracking

/-- LocalStorageService.getTrackings with its guards: an absent key or an
empty (falsy) string yields [], a failing JSON.parse is caught and yields
[], and otherwise every parsed record is rehydrated. The parse outcome is
supplied as a function argument. -/
def getStoredTrackings (data : Option String)
    (parse : String → Option (List StoredTracking)) : List Tracking :=
  match data with
  | none => []
  | some s =>
    if s = "" then []
    else
      match parse s with
      | none => []
      | some stored => stored.map rehydrateTracking

/-! ## Analytics aggregator (AnalyticsService) -/

/-- Derived monthly statistics record. -/
structure MonthlyStats where
  month : String
  totalPackages : Nat
  delivered : Nat
  inTransit : Nat
deriving DecidableEq

/-- AnalyticsService.getMonthlyStats over a snapshot: a falsy (absent or
empty) month argument defaults to the current month, then the snapshot is
filtered by formatMonth of createdAt and counted. -/
def getMonthlyStats (ts : List Tracking) (month : Option String)
    (currentMonth : String) : MonthlyStats :=
  let targetMonth : String :=
    match month with
    | some m => if m = "" then currentMonth else m
    | none => currentMonth
  let monthlyTrackings := ts.filter fun t => decide (formatMonth t.createdAt = targetMonth)
  { month := targetMonth
    totalPackages := monthlyTrackings.length
    delivered :=
      (monthlyTrackings.filter fun t => decide (t.status = DeliveryStatus.delivered)).length
    inTransit :=
      (monthlyTrackings.filter fun t =>
        decide (t.status = DeliveryStatus.in_transit ∨
          t.status = DeliveryStatus.out_for_delivery)).length }

/-- Derived per-carrier distribution record; percentage and average are
the integers produced by Math.round. -/
structure CourierDistribution where
  carrierCode : String
  carrierName : String
  count : Nat
  percentage : Int
  avgTransitDays : Option Int := none
deriving DecidableEq

/-- The per-carrier accumulator of getCourierDistribution's Map. -/
structure CarrierAcc where
  name : String
  count : Nat
  totalTransitDays : Int
  deliveredCount : Nat
deriving DecidableEq

/-- Map.get on the insertion-ordered association list. -/
def lookupAcc (code : String) : List (String × CarrierAcc) → Option CarrierAcc
  | [] => none
  | (c, a) :: rest => if c = code then some a else lookupAcc code rest

/-- Map.set on an existing key: replace in place, keeping order. -/
def setAcc (code : String) (a : CarrierAcc) : List (String × CarrierAcc) →
    List (String × CarrierAcc)
  | [] => []
  | (c, b) :: rest => if c = code then (c, a) :: rest else (c, b) :: setAcc code a rest

/-- The qualification test of the aggregation loop: status delivered and
(transitDays with falsy defaulting to 0) strictly positive. -/
def qualifies (t : Tracking) : Bool :=
  decide (t.status = DeliveryStatus.delivered) && decide (0 < t.transitDays.getD 0)

/-- One iteration of the counting loop of getCourierDistribution. -/
def insertTracking (groups : List (String × CarrierAcc)) (t : Tracking) :
    List (String × CarrierAcc) :=
  match lookupAcc t.carrier.code groups with
  | some g =>
    setAcc t.carrier.code
      { name := g.name
        count := g.count + 1
        totalTransitDays :=
          if qualifies t then g.totalTransitDays + t.transitDays.getD 0
          else g.totalTransitDays
        deliveredCount :=
          if qualifies t then g.deliveredCount + 1 else g.deliveredCount } groups
  | none =>
    groups ++ [(t.carrier.code,
      { name := t.carrier.name
        count := 1
        totalTransitDays := if qualifies t then t.transitDays.getD 0 else 0
        deliveredCount := if qualifies t then 1 else 0 })]

/-- The counting loop over the whole snapshot, in snapshot order. -/
def buildGroups (ts : List Tracking) : List (String × CarrierAcc) :=
  ts.foldl insertTracking []

/-- Math.round on an exact rational: floor of x + one half (ties round
up), matching JavaScript on the magnitudes involved. -/
def jsRound (q : ℚ) : ℤ := ⌊q + 1 / 2⌋

/-- AnalyticsService.getCourierDistribution over a snapshot: empty
snapshot short-circuits to []; otherwise group by carrier code and form
count, rounded percentage and optional rounded average transit days. -/
def getCourierDistribution (ts : List Tracking) : List CourierDistribution :=
  if ts.length = 0 then []
  else
    (buildGroups ts).map fun p =>
      { carrierCode := p.1
        carrierName := p.2.name
        count := p.2.count
        percentage := jsRound (((p.2.count : ℚ) / (ts.length : ℚ)) * 100)
        avgTransitDays :=
          if 0 < p.2.deliveredCount then
            some (jsRound ((p.2.totalTransitDays : ℚ) / (p.2.deliveredCount : ℚ)))
          else none }

/-! ## Reference counting functions for the aggregation proofs -/

/-- Number of snapshot members with the given carrier code. -/
def countCode (code : String) (ts : List Tracking) : Nat :=
  (ts.filter fun t => decide (t.carrier.code = code)).length

/-- Number of members with the code that are delivered with positive
transit days. -/
def qualCount (code : String) (ts : List Tracking) : Nat :=
  (ts.filter fun t => decide (t.carrier.code = code) && qualifies t).length

/-- Sum of transit days over the qualifying members with the code. -/
def qualSum (code : String) (ts : List Tracking) : Int :=
  ((ts.filter fun t => decide (t.carrier.code = code) && qualifies t).map
    fun t => t.transitDays.getD 0).sum

/-- Carrier display name of the first snapshot member with the code. -/
def firstName (code : String) (ts : List Tracking) : String :=
  ((ts.find? fun t => decide (t.carrier.code = code)).map fun t => t.carrier.name).getD ""

/-- One-step image of the accumulator under lookupAcc at a fixed code. -/
def stepAcc (code : String) (t : Tracking) (og : Option CarrierAcc) : Option CarrierAcc :=
  if t.carrier.code = code then
    match og with
    | some g =>
      some { name := g.name
             count := g.count + 1
             totalTransitDays :=
               g.totalTransitDays + (if qualifies t then t.transitDays.getD 0 else 0)
             deliveredCount := g.deliveredCount + (if qualifies t then 1 else 0) }
    | none =>
      some { name := t.carrier.name
             count := 1
             totalTransitDays := if qualifies t then t.transitDays.getD 0 else 0
             deliveredCount := if qualifies t then 1 else 0 }
  else og

/-- Cumulative image of the accumulator for a whole snapshot suffix. -/
def mergeAcc (code : String) (ts : List Tracking) (og : Option CarrierAcc) :
    Option CarrierAcc :=
  match og with
  | some g =>
    some { name := g.name
           count := g.count + countCode code ts
           totalTransitDays := g.totalTransitDays + qualSum code ts
           deliveredCount := g.deliveredCount + qualCount code ts }
  | none =>
    if countCode code ts = 0 then none
    else
      some { name := firstName code ts
             count := countCode code ts
             totalTransitDays := qualSum code ts
             deliveredCount := qualCount code ts }

theorem lookupAcc_setAcc_eq (code : String) (a : CarrierAcc) :
    ∀ gs : List (String × CarrierAcc), (lookupAcc code gs).isSome →
      lookupAcc code (setAcc code a gs) = some a := by
  intro gs
  induction gs with
  | nil => intro h; simp [lookupAcc] at h
  | cons p rest ih =>
    intro h
    obtain ⟨c, b⟩ := p
    by_cases hc : c = code
    · simp [setAcc, lookupAcc, hc]
    · simp only [setAcc, lookupAcc, if_neg hc] at h ⊢
      exact ih h

theorem lookupAcc_setAcc_ne (code c : String) (a : CarrierAcc) (hne : c ≠ code) :
    ∀ gs : List (String × CarrierAcc), lookupAcc c (setAcc code a gs) = lookupAcc c gs := by
  intro gs
  induction gs with
  | nil => rfl
  | cons p rest ih =>
    obtain ⟨c', b⟩ := p
    simp only [setAcc]
    by_cases h1 : c' = code
    · rw [if_pos h1]
      have h2 : c' ≠ c := fun h => hne (h ▸ h1)
      simp only [lookupAcc, if_neg h2]
    · rw [if_neg h1]
      by_cases h2 : c' = c
      · simp only [lookupAcc, if_pos h2]
      · simp only [lookupAcc, if_neg h2]
        exact ih

theorem lookupAcc_append (code c : String) (a : CarrierAcc) :
    ∀ gs : List (String × CarrierAcc),
      lookupAcc code (gs ++ [(c, a)]) =
        match lookupAcc code gs with
        | some g => some g
        | none => if c = code then some a else none := by
  intro gs
  induction gs with
  | nil => rfl
  | cons p rest ih =>
    obtain ⟨c', b⟩ := p
    by_cases h : c' = code
    · simp [lookupAcc, h]
    · simp only [List.cons_append, lookupAcc, if_neg h]
      exact ih

theorem lookupAcc_insertTracking (t : Tracking) (code : String)
    (gs : List (String × CarrierAcc)) :
    lookupAcc code (insertTracking gs t) = stepAcc code t (lookupAcc code gs) := by
  unfold insertTracking
  cases hg : lookupAcc t.carrier.code gs with
  | some g =>
    by_cases hc : t.carrier.code = code
    · subst hc
      rw [lookupAcc_setAcc_eq _ _ gs (by rw [hg]; rfl)]
      simp only [stepAcc, if_pos rfl, hg]
      cases hq : qualifies t <;> simp
    · rw [lookupAcc_setAcc_ne _ _ _ (fun h => hc h.symm)]
      simp [stepAcc, hc]
  | none =>
    rw [lookupAcc_append]
    by_cases hc : t.carrier.code = code
    · subst hc
      rw [hg]
      simp [stepAcc]
    · simp only [stepAcc, if_neg hc]
      cases h2 : lookupAcc code gs with
      | some g => simp
      | none => simp [hc]

theorem mergeAcc_cons (code : String) (t : Tracking) (ts : List Tracking)
    (og : Option CarrierAcc) :
    mergeAcc code (t :: ts) og = mergeAcc code ts (stepAcc code t og) := by
  by_cases hc : t.carrier.code = code
  · have hcnt : countCode code (t :: ts) = 1 + countCode code ts := by
      simp [countCode, List.filter_cons, hc]
      omega
    have hqs : qualSum code (t :: ts) =
        (if qualifies t then t.transitDays.getD 0 else 0) + qualSum code ts := by
      cases hq : qualifies t <;>
        simp [qualSum, List.filter_cons, hc, hq]
    have hqc : qualCount code (t :: ts) =
        (if qualifies t then 1 else 0) + qualCount code ts := by
      cases hq : qualifies t <;>
        simp [qualCount, List.filter_cons, hc, hq]
      omega
    have hfn : firstName code (t :: ts) = t.carrier.name := by
      simp [firstName, List.find?_cons_of_pos, hc]
    cases og with
    | some g =>
      simp only [mergeAcc, stepAcc, if_pos hc, hcnt, hqs, hqc, Option.some.injEq,
        CarrierAcc.mk.injEq, true_and] <;> omega
    | none =>
      simp only [mergeAcc, stepAcc, if_pos hc, hcnt, hqs, hqc, hfn]
      rw [if_neg (by omega)]
  · have hcnt : countCode code (t :: ts) = countCode code ts := by
      simp [countCode, List.filter_cons, hc]
    have hqs : qualSum code (t :: ts) = qualSum code ts := by
      simp [qualSum, List.filter_cons, hc]
    have hqc : qualCount code (t :: ts) = qualCount code ts := by
      simp [qualCount, List.filter_cons, hc]
    have hfn : firstName code (t :: ts) = firstName code ts := by
      simp [firstName, List.find?_cons_of_neg, hc]
    simp only [mergeAcc, stepAcc, if_neg hc, hcnt, hqs, hqc, hfn]

theorem lookupAcc_foldl (code : String) :
    ∀ (ts : List Tracking) (gs : List (String × CarrierAcc)),
      lookupAcc code (ts.foldl insertTracking gs) = mergeAcc code ts (lookupAcc code gs) := by
  intro ts
  induction ts with
  | nil =>
    intro gs
    cases h : lookupAcc code gs <;>
      simp [mergeAcc, countCode, qualCount, qualSum, h]
  | cons t ts ih =>
    intro gs
    rw [List.foldl_cons, ih, lookupAcc_insertTracking, mergeAcc_cons]

theorem lookupAcc_buildGroups (code : String) (ts : List Tracking) :
    lookupAcc code (buildGroups ts) = mergeAcc code ts none :=
  lookupAcc_foldl code ts []

theorem keys_setAcc (code : String) (a : CarrierAcc) :
    ∀ gs : List (String × CarrierAcc), (setAcc code a gs).map Prod.fst = gs.map Prod.fst := by
  intro gs
  induction gs with
  | nil => rfl
  | cons p rest ih =>
    obtain ⟨c, b⟩ := p
    by_cases h : c = code <;> simp [setAcc, h, ih]

theorem lookupAcc_eq_none_iff (code : String) :
    ∀ gs : List (String × CarrierAcc), lookupAcc code gs = none ↔ code ∉ gs.map Prod.fst := by
  intro gs
  induction gs with
  | nil => simp [lookupAcc]
  | cons p rest ih =>
    obtain ⟨c, b⟩ := p
    simp only [lookupAcc, List.map_cons, List.mem_cons]
    by_cases h : c = code
    · simp [h]
    · simp only [if_neg h]
      rw [ih]
      simp [show ¬ code = c from fun h2 => h h2.symm]

theorem keys_nodup_insertTracking (t : Tracking) (gs : List (String × CarrierAcc))
    (h : (gs.map Prod.fst).Nodup) : ((insertTracking gs t).map Prod.fst).Nodup := by
  unfold insertTracking
  cases hg : lookupAcc t.carrier.code gs with
  | some g => rw [keys_setAcc]; exact h
  | none =>
    rw [List.map_append]
    rw [List.nodup_append]
    refine ⟨h, List.nodup_singleton _, ?_⟩
    intro a ha hb
    simp only [List.map_cons, List.map_nil, List.mem_singleton] at hb
    subst hb
    exact (lookupAcc_eq_none_iff _ gs).mp hg ha

theorem keys_nodup_buildGroups (ts : List Tracking) :
    ((buildGroups ts).map Prod.fst).Nodup := by
  unfold buildGroups
  suffices h : ∀ gs : List (String × CarrierAcc), (gs.map Prod.fst).Nodup →
      ((ts.foldl insertTracking gs).map Prod.fst).Nodup from h [] (by simp)
  induction ts with
  | nil => intro gs hgs; simpa using hgs
  | cons t ts ih =>
    intro gs hgs
    rw [List.foldl_cons]
    exact ih _ (keys_nodup_insertTracking t gs hgs)

theorem mem_lookupAcc :
    ∀ gs : List (String × CarrierAcc), (gs.map Prod.fst).Nodup →
      ∀ code a, (code, a) ∈ gs → lookupAcc code gs = some a := by
  intro gs
  induction gs with
  | nil => intro _ code a h; simp at h
  | cons p rest ih =>
    intro hnd code a hmem
    obtain ⟨c, b⟩ := p
    rw [List.map_cons, List.nodup_cons] at hnd
    rcases List.mem_cons.mp hmem with h | h
    · injection h with h1 h2
      subst h1; subst h2
      simp [lookupAcc]
    · by_cases hc : c = code
      · exfalso
        subst hc
        exact hnd.1 (List.mem_map.mpr ⟨(c, a), h, rfl⟩)
      · simp only [lookupAcc, if_neg hc]
        exact ih hnd.2 code a h

/-! ## Helper lemmas for the repository upsert -/

theorem findIdxAux_eq_none_iff (p : Tracking → Bool) :
    ∀ ts : List Tracking, findIdxAux p ts = none ↔ ∀ t ∈ ts, p t = false := by
  intro ts
  induction ts with
  | nil => simp [findIdxAux]
  | cons t ts ih =>
    by_cases hp : p t
    · simp [findIdxAux, hp]
    · simp only [findIdxAux, if_neg hp, Option.map_eq_none', List.mem_cons]
      rw [ih]
      constructor
      · intro h x hx
        rcases hx with hx | hx
        · subst hx; exact Bool.eq_false_iff.mpr hp
        · exact h x hx
      · intro h x hx
        exact h x (Or.inr hx)

theorem findIdxAux_eq_some (p : Tracking → Bool) :
    ∀ (ts : List Tracking) (i : Nat), findIdxAux p ts = some i →
      i < ts.length ∧ ∃ x, ts[i]? = some x ∧ p x = true := by
  intro ts
  induction ts with
  | nil => intro i h; simp [findIdxAux] at h
  | cons t ts ih =>
    intro i h
    by_cases hp : p t
    · rw [findIdxAux, if_pos hp] at h
      injection h with h
      subst h
      exact ⟨Nat.succ_pos _, t, by simp, hp⟩
    · rw [findIdxAux, if_neg hp] at h
      rcases Option.map_eq_some'.mp h with ⟨j, hj, rfl⟩
      obtain ⟨hlt, x, hx, hpx⟩ := ih j hj
      exact ⟨Nat.succ_lt_succ hlt, x, by simpa [List.getElem?_cons_succ] using hx, hpx⟩

theorem set_getElem?_self {α : Type} :
    ∀ (l : List α) (i : Nat) (a : α), l[i]? = some a → l.set i a = l := by
  intro l
  induction l with
  | nil => intro i a h; simp at h
  | cons x l ih =>
    intro i a h
    match i with
    | 0 =>
      simp only [List.getElem?_cons_zero, Option.some.injEq] at h
      subst h
      rfl
    | i + 1 =>
      simp only [List.getElem?_cons_succ] at h
      simp [List.set, ih i a h]

/-! ## Month-key characterization for the monthly statistics -/

theorem formatMonthOf_ne_empty (y mo : Nat) : formatMonthOf y mo ≠ "" := by
  intro h
  have hd := congrArg String.data h
  rw [formatMonthOf, String.data_append, String.data_append] at hd
  have hdash : ("-" : String).data = ['-'] := rfl
  rw [hdash] at hd
  have : ("" : String).data = [] := rfl
  rw [this] at hd
  simp at hd

theorem formatMonth_eq_key_iff (d : DateTime) (y mo : Nat) (hmo : mo < 12)
    (hd : d.month < 12) : formatMonth d = formatMonthOf y mo ↔ d.year = y ∧ d.month = mo := by
  constructor
  · intro h
    exact formatMonthOf_inj hd hmo h
  · intro h
    rw [formatMonth, h.1, h.2]

/-! ## Shared concrete fixtures -/

/-- A fixed sample date (June 2025 in zero-based months). -/
def sampleDate : DateTime := ⟨2025, 5, 10, 12, 0, 0, 0⟩

/-- A fixed ambient-effect environment. -/
def sampleEnv : JsEnv := ⟨fun _ => "uuid-0", sampleDate, fun _ => sampleDate⟩

/-! ## Claim theorems -/

/-- Helper: a non-empty input whose uppercase form is a key of the status
table maps to that key's value. -/
theorem mapTrack123Status_table (s key : String) (v : DeliveryStatus)
    (hkey : statusLookup key statusTable = some v) (hne : key ≠ "")
    (h : jsToUpper s = key) : mapTrack123Status (some s) = v := by
  have hup : jsToUpper "" = "" := rfl
  have hs : s ≠ "" := by
    intro he
    rw [he, hup] at h
    exact hne h.symm
  simp only [mapTrack123Status, if_neg hs, h, hkey, Option.getD_some]

/-- Helper: a key absent from the status table looks up to none. -/
theorem statusLookup_eq_none (u : String)
    (h : u ∉ ["PENDING", "NO_FOUND", "INFO_RECEIVED", "IN_TRANSIT", "OUT_FOR_DELIVERY",
      "DELIVERED", "EXCEPTION", "FAILED_ATTEMPT", "EXPIRED"]) :
    statusLookup u statusTable = none := by
  simp only [List.mem_cons, List.mem_singleton, not_or] at h
  obtain ⟨h1, h2, h3, h4, h5, h6, h7, h8, h9, -⟩ := h
  simp [statusLookup, statusTable, Ne.symm h1, Ne.symm h2, Ne.symm h3, Ne.symm h4,
    Ne.symm h5, Ne.symm h6, Ne.symm h7, Ne.symm h8, Ne.symm h9]

/-- Claim C4: the status normalizer is pure and total. Absent or empty
input yields pending; an input whose uppercase form is one of the nine
table keys yields the documented value regardless of input case; every
other non-empty input yields unknown. -/
theorem c4_normalizer_total :
    mapTrack123Status none = DeliveryStatus.pending ∧
    mapTrack123Status (some "") = DeliveryStatus.pending ∧
    (∀ s : String, jsToUpper s = "PENDING" →
      mapTrack123Status (some s) = DeliveryStatus.pending) ∧
    (∀ s : String, jsToUpper s = "NO_FOUND" →
      mapTrack123Status (some s) = DeliveryStatus.pending) ∧
    (∀ s : String, jsToUpper s = "INFO_RECEIVED" →
      mapTrack123Status (some s) = DeliveryStatus.info_received) ∧
    (∀ s : String, jsToUpper s = "IN_TRANSIT" →
      mapTrack123Status (some s) = DeliveryStatus.in_transit) ∧
    (∀ s : String, jsToUpper s = "OUT_FOR_DELIVERY" →
      mapTrack123Status (some s) = DeliveryStatus.out_for_delivery) ∧
    (∀ s : String, jsToUpper s = "DELIVERED" →
      mapTrack123Status (some s) = DeliveryStatus.delivered) ∧
    (∀ s : String, jsToUpper s = "EXCEPTION" →
      mapTrack123Status (some s) = DeliveryStatus.exception) ∧
    (∀ s : String, jsToUpper s = "FAILED_ATTEMPT" →
      mapTrack123Status (some s) = DeliveryStatus.failed_attempt) ∧
    (∀ s : String, jsToUpper s = "EXPIRED" →
      mapTrack123Status (some s) = DeliveryStatus.expired) ∧
    (∀ s : String, s ≠ "" →
      jsToUpper s ∉ ["PENDING", "NO_FOUND", "INFO_RECEIVED", "IN_TRANSIT", "OUT_FOR_DELIVERY",
        "DELIVERED", "EXCEPTION", "FAILED_ATTEMPT", "EXPIRED"] →
      mapTrack123Status (some s) = DeliveryStatus.unknown) := by
  refine ⟨rfl, rfl, ?_, ?_, ?_, ?_, ?_, ?_, ?_, ?_, ?_, ?_⟩
  · exact fun s h => mapTrack123Status_table s "PENDING" _ rfl (by decide) h
  · exact fun s h => mapTrack123Status_table s "NO_FOUND" _ rfl (by decide) h
  · exact fun s h => mapTrack123Status_table s "INFO_RECEIVED" _ rfl (by decide) h
  · exact fun s h => mapTrack123Status_table s "IN_TRANSIT" _ rfl (by decide) h
  · exact fun s h => mapTrack123Status_table s "OUT_FOR_DELIVERY" _ rfl (by decide) h
  · exact fun s h => mapTrack123Status_table s "DELIVERED" _ rfl (by decide) h
  · exact fun s h => mapTrack123Status_table s "EXCEPTION" _ rfl (by decide) h
  · exact fun s h => mapTrack123Status_table s "FAILED_ATTEMPT" _ rfl (by decide) h
  · exact fun s h => mapTrack123Status_table s "EXPIRED" _ rfl (by decide) h
  · intro s hs hmem
    simp only [mapTrack123Status, if_neg hs, statusLookup_eq_none _ hmem, Option.getD_none]

/-- Witness for C4 at concrete inputs: a lowercase table key maps through
the table, and a garbage string maps to unknown. -/
theorem c4_witness :
    mapTrack123Status (some "delivered") = DeliveryStatus.delivered ∧
    mapTrack123Status (some "garbage") = DeliveryStatus.unknown := by
  constructor
  · exact c4_normalizer_total.2.2.2.2.2.2.2.1 "delivered" (by decide)
  · exact c4_normalizer_total.2.2.2.2.2.2.2.2.2.2.2 "garbage" (by decide) (by decide)

/-- Claim C8: courierDistribution on an empty snapshot returns the empty
list — the zero-total division is short-circuited, so no entry with an
undefined percentage is ever produced. -/
theorem c8_empty_snapshot_distribution : getCourierDistribution [] = [] := rfl

/-- Claim C10: getTrackings is total at the public interface — an absent
storage key, an empty stored string, and a string the parser rejects all
yield the empty list instead of an error. -/
theorem c10_getTrackings_total :
    (∀ parse : String → Option (List StoredTracking), getStoredTrackings none parse = []) ∧
    (∀ parse : String → Option (List StoredTracking), getStoredTrackings (some "") parse = []) ∧
    (∀ (parse : String → Option (List StoredTracking)) (s : String), parse s = none →
      getStoredTrackings (some s) parse = []) := by
  refine ⟨fun parse => rfl, fun parse => rfl, fun parse s h => ?_⟩
  by_cases hs : s = ""
  · subst hs; rfl
  · simp [getStoredTrackings, hs, h]

/-- Witness for C10: a concrete missing key and a concrete unparsable
string both read back as the empty list. -/
theorem c10_witness :
    getStoredTrackings none (fun _ => none) = [] ∧
    getStoredTrackings (some "not json") (fun _ => none) = [] :=
  ⟨c10_getTrackings_total.1 (fun _ => none),
   c10_getTrackings_total.2.2 (fun _ => none) "not json" rfl⟩

/-- A stored Tracking carrying every optional field, in particular
transitDays. -/
def c2Tracking : Tracking :=
  { id := "id-1"
    trackingNumber := "TH123456789"
    nickname := "my parcel"
    carrier := { code := "kerry", name := "Kerry Express" }
    status := DeliveryStatus.delivered
    events := [{ timestamp := sampleDate, location := "Bangkok",
                 description := "Delivered", status := DeliveryStatus.delivered }]
    estimatedDelivery := some sampleDate
    transitDays := some 5
    createdAt := sampleDate
    updatedAt := sampleDate }

/-- Claim C2, evaluated at the failing input: saving a Tracking whose
transitDays is set and re-reading it does not return the original record;
every field survives except transitDays, which rehydrateTracking drops. -/
theorem c2_roundtrip_drops_transitDays :
    readStore (saveToStore [] c2Tracking) ≠ [c2Tracking] ∧
    readStore (saveToStore [] c2Tracking) = [{ c2Tracking with transitDays := none }] ∧
    c2Tracking.transitDays = some 5 := by
  refine ⟨by decide, by decide, rfl⟩

/-- Claim C7: when the first gateway query returns one or more matches,
instantTrack returns the first match normalized by mapToTracking with the
nickname override applied, performs exactly one query, and never invokes
registration. -/
theorem c7_known_number_skips_registration (gw : GatewayBehavior) (env1 env2 : JsEnv)
    (tn : String) (nick : Option String) (c : TrackingContent) (rest : List TrackingContent)
    (h : gw.firstQuery = Except.ok (c :: rest)) :
    instantTrack gw env1 env2 tn nick =
      (Except.ok (applyNick (mapToTracking env1 0 c) nick),
       { queries := 1, registerCalls := 0, waits := 0 }) := by
  simp [instantTrack, serviceQuery, h, List.enum_cons, finishTrack]

/-- Witness for C7: a concrete gateway that already knows the number. -/
theorem c7_witness :
    instantTrack ⟨Except.ok [{ trackNo := "TN1", transitStatus := "IN_TRANSIT" }],
        Except.error "never", Except.ok []⟩ sampleEnv sampleEnv "TN1" none =
      (Except.ok (applyNick
        (mapToTracking sampleEnv 0 { trackNo := "TN1", transitStatus := "IN_TRANSIT" }) none),
       { queries := 1, registerCalls := 0, waits := 0 }) :=
  c7_known_number_skips_registration _ sampleEnv sampleEnv "TN1" none _ [] rfl

/-- Claim C6: when the gateway reports no match on the first query,
registration succeeds, and the re-query also reports no match,
instantTrack fails with the not-found error and its trace shows exactly
two queries — no further query happens beyond the second. -/
theorem c6_still_unknown_not_found (gw : GatewayBehavior) (env1 env2 : JsEnv)
    (tn : String) (nick : Option String)
    (h1 : gw.firstQuery = Except.ok []) (h2 : gw.registerResult = Except.ok ())
    (h3 : gw.secondQuery = Except.ok []) :
    instantTrack gw env1 env2 tn nick =
      (Except.error "Tracking info not found",
       { queries := 2, registerCalls := 1, waits := 1 }) := by
  simp [instantTrack, serviceQuery, h1, h2, h3, finishTrack]

/-- Witness for C6 at a concrete gateway behavior. -/
theorem c6_witness :
    instantTrack ⟨Except.ok [], Except.ok (), Except.ok []⟩ sampleEnv sampleEnv "TN2" none =
      (Except.error "Tracking info not found",
       { queries := 2, registerCalls := 1, waits := 1 }) :=
  c6_still_unknown_not_found _ sampleEnv sampleEnv "TN2" none rfl rfl rfl

/-- A gateway behavior where the number is unknown on the first query,
registration throws, and a re-query would have found the package. -/
def c1Gateway : GatewayBehavior :=
  { firstQuery := Except.ok []
    registerResult := Except.error "GatewayError: import failed"
    secondQuery := Except.ok [{ trackNo := "TN3", transitStatus := "IN_TRANSIT" }] }

/-- Counterexample to claim C1: with a failing registration the resolver
performs no backoff wait and no re-query — the trace stops at one query —
even though the re-query would have succeeded; it fails with the
not-found error instead. -/
theorem c1_counterexample :
    (instantTrack c1Gateway sampleEnv sampleEnv "TN3" none).2 =
      { queries := 1, registerCalls := 1, waits := 0 } ∧
    (instantTrack c1Gateway sampleEnv sampleEnv "TN3" none).2.queries ≠ 2 ∧
    (instantTrack c1Gateway sampleEnv sampleEnv "TN3" none).1 =
      Except.error "Tracking info not found" := by
  refine ⟨rfl, by decide, rfl⟩

/-- Amended claim C1: a registration failure is swallowed — instantTrack
does not propagate the registration error and fails with the not-found
error — but the backoff wait and the re-query are skipped; the trace
records one query, one registration attempt and no wait. -/
theorem c1_register_failure_swallowed_but_no_requery (gw : GatewayBehavior)
    (env1 env2 : JsEnv) (tn : String) (nick : Option String) (e : String)
    (h1 : gw.firstQuery = Except.ok []) (h2 : gw.registerResult = Except.error e) :
    instantTrack gw env1 env2 tn nick =
      (Except.error "Tracking info not found",
       { queries := 1, registerCalls := 1, waits := 0 }) := by
  simp [instantTrack, serviceQuery, h1, h2, finishTrack]

/-- Witness for the amended C1 at the concrete failing gateway. -/
theorem c1_witness :
    instantTrack c1Gateway sampleEnv sampleEnv "TN3" none =
      (Except.error "Tracking info not found",
       { queries := 1, registerCalls := 1, waits := 0 }) :=
  c1_register_failure_swallowed_but_no_requery c1Gateway sampleEnv sampleEnv "TN3" none
    "GatewayError: import failed" rfl rfl

/-- Claim C9: saveTracking preserves uniqueness of trackingNumber. On a
collection with pairwise-distinct trackingNumbers, a duplicate
trackingNumber is replaced in place at the index holding that number
(size unchanged) and a fresh one is appended; either way the resulting
collection still has pairwise-distinct trackingNumbers. -/
theorem c9_saveTracking_unique (ts : List Tracking) (tr : Tracking)
    (h : (ts.map fun t => t.trackingNumber).Nodup) :
    ((saveTracking ts tr).map fun t => t.trackingNumber).Nodup ∧
    (tr.trackingNumber ∈ ts.map (fun t => t.trackingNumber) →
      (saveTracking ts tr).length = ts.length ∧
      ∃ i, i < ts.length ∧ (ts[i]?.map fun t => t.trackingNumber) = some tr.trackingNumber ∧
        saveTracking ts tr = ts.set i tr) ∧
    (tr.trackingNumber ∉ ts.map (fun t => t.trackingNumber) →
      saveTracking ts tr = ts ++ [tr]) := by
  cases hf : findIdxAux (fun t => decide (t.trackingNumber = tr.trackingNumber)) ts with
  | none =>
    have hall := (findIdxAux_eq_none_iff _ ts).mp hf
    have hnotin : tr.trackingNumber ∉ ts.map fun t => t.trackingNumber := by
      intro hmem
      rcases List.mem_map.mp hmem with ⟨x, hx, hxe⟩
      have hdec := hall x hx
      rw [decide_eq_false_iff_not] at hdec
      exact hdec hxe
    have hsave : saveTracking ts tr = ts ++ [tr] := by simp [saveTracking, hf]
    refine ⟨?_, fun hmem => absurd hmem hnotin, fun _ => hsave⟩
    rw [hsave, List.map_append, List.nodup_append]
    refine ⟨h, List.nodup_singleton _, ?_⟩
    intro a ha hb
    simp only [List.map_cons, List.map_nil, List.mem_singleton] at hb
    subst hb
    exact hnotin ha
  | some i =>
    obtain ⟨hlt, x, hx, hpx⟩ := findIdxAux_eq_some _ ts i hf
    have hxe : x.trackingNumber = tr.trackingNumber := of_decide_eq_true hpx
    have hsave : saveTracking ts tr = ts.set i tr := by simp [saveTracking, hf]
    have hmapset : ((ts.set i tr).map fun t => t.trackingNumber) =
        ts.map fun t => t.trackingNumber := by
      rw [List.map_set]
      apply set_getElem?_self
      rw [List.getElem?_map, hx]
      simp [hxe]
    refine ⟨by rw [hsave, hmapset]; exact h, ?_, ?_⟩
    · intro _
      refine ⟨by rw [hsave]; exact List.length_set ts i tr, i, hlt, ?_, hsave⟩
      rw [hx]
      simp [hxe]
    · intro hnmem
      exact absurd (List.mem_map.mpr ⟨x, List.getElem?_mem hx, hxe⟩) hnmem

/-- A small tracking fixture. -/
def mkFixture (i tn : String) (st : DeliveryStatus) (cd : DateTime) (td : Option Int)
    (carrier : Carrier) : Tracking :=
  { id := i
    trackingNumber := tn
    nickname := tn
    carrier := carrier
    status := st
    events := []
    estimatedDelivery := none
    transitDays := td
    createdAt := cd
    updatedAt := cd }

/-- A two-record store with distinct tracking numbers. -/
def c9Store : List Tracking :=
  [mkFixture "1" "N1" DeliveryStatus.pending sampleDate none ⟨"a", "A", none, none⟩,
   mkFixture "2" "N2" DeliveryStatus.pending sampleDate none ⟨"b", "B", none, none⟩]

/-- An update carrying an already-present tracking number. -/
def c9Update : Tracking :=
  mkFixture "3" "N1" DeliveryStatus.delivered sampleDate none ⟨"c", "C", none, none⟩

/-- Witness for C9: saving a record that duplicates the first number into
the concrete two-record store keeps the size at two and keeps the numbers
pairwise distinct. -/
theorem c9_witness :
    ((saveTracking c9Store c9Update).map fun t => t.trackingNumber).Nodup ∧
    (saveTracking c9Store c9Update).length = c9Store.length := by
  have hnd : (c9Store.map fun t => t.trackingNumber).Nodup := by decide
  have h := c9_saveTracking_unique c9Store c9Update hnd
  exact ⟨h.1, (h.2.1 (by decide)).1⟩

/-- Claim C5: for every snapshot and target calendar month (well-formed
dates assumed, with zero-based months below twelve), getMonthlyStats
selects exactly the Trackings created in that calendar year and month —
not a thirty-day window — and returns the total count, the delivered
count, and the count with status in-transit or out-for-delivery. -/
theorem c5_monthlyStats_calendar_month (ts : List Tracking) (y mo : Nat)
    (currentMonth : String) (hmo : mo < 12)
    (hts : ∀ t ∈ ts, t.createdAt.month < 12) :
    getMonthlyStats ts (some (formatMonthOf y mo)) currentMonth =
      { month := formatMonthOf y mo
        totalPackages := (ts.filter fun t =>
          decide (t.createdAt.year = y ∧ t.createdAt.month = mo)).length
        delivered := ((ts.filter fun t =>
            decide (t.createdAt.year = y ∧ t.createdAt.month = mo)).filter
          fun t => decide (t.status = DeliveryStatus.delivered)).length
        inTransit := ((ts.filter fun t =>
            decide (t.createdAt.year = y ∧ t.createdAt.month = mo)).filter
          fun t => decide (t.status = DeliveryStatus.in_transit ∨
            t.status = DeliveryStatus.out_for_delivery)).length } := by
  have hne := formatMonthOf_ne_empty y mo
  have hfilter : (ts.filter fun t => decide (formatMonth t.createdAt = formatMonthOf y mo)) =
      ts.filter fun t => decide (t.createdAt.year = y ∧ t.createdAt.month = mo) := by
    apply List.filter_congr
    intro t ht
    have hiff := formatMonth_eq_key_iff t.createdAt y mo hmo (hts t ht)
    by_cases hy : t.createdAt.year = y ∧ t.createdAt.month = mo
    · simp [hiff.mpr hy, hy]
    · have hnk : ¬ formatMonth t.createdAt = formatMonthOf y mo := fun hh => hy (hiff.mp hh)
      simp [hnk, hy]
  simp only [getMonthlyStats, if_neg hne, hfilter]

/-- The four-tracking snapshot of the monthly-stats example, all created
in the target month. -/
def c5Snapshot : List Tracking :=
  [mkFixture "1" "M1" DeliveryStatus.delivered ⟨2025, 5, 1, 0, 0, 0, 0⟩ none ⟨"k", "K", none, none⟩,
   mkFixture "2" "M2" DeliveryStatus.in_transit ⟨2025, 5, 7, 0, 0, 0, 0⟩ none ⟨"k", "K", none, none⟩,
   mkFixture "3" "M3" DeliveryStatus.out_for_delivery ⟨2025, 5, 14, 0, 0, 0, 0⟩ none
     ⟨"k", "K", none, none⟩,
   mkFixture "4" "M4" DeliveryStatus.pending ⟨2025, 5, 30, 23, 59, 0, 0⟩ none
     ⟨"k", "K", none, none⟩]

/-- Witness for C5: on the concrete snapshot with statuses delivered,
in-transit, out-for-delivery and pending, the target month yields
totalPackages four, delivered one, inTransit two. -/
theorem c5_witness :
    getMonthlyStats c5Snapshot (some (formatMonthOf 2025 5)) "" =
      { month := formatMonthOf 2025 5, totalPackages := 4, delivered := 1, inTransit := 2 } := by
  have h := c5_monthlyStats_calendar_month c5Snapshot 2025 5 "" (by decide) (by decide)
  rw [h]
  decide

/-- The three-tracking snapshot of the aggregator example: carrier A
delivered with transit days two, carrier A delivered with transit days
four, carrier B in transit with transit days zero. -/
def c3Snapshot : List Tracking :=
  [mkFixture "1" "P1" DeliveryStatus.delivered sampleDate (some 2) ⟨"A", "Carrier A", none, none⟩,
   mkFixture "2" "P2" DeliveryStatus.delivered sampleDate (some 4) ⟨"A", "Carrier A", none, none⟩,
   mkFixture "3" "P3" DeliveryStatus.in_transit sampleDate (some 0) ⟨"B", "Carrier B", none, none⟩]

/-- The expected distribution entry for carrier A. -/
def c3EntryA : CourierDistribution :=
  { carrierCode := "A", carrierName := "Carrier A", count := 2, percentage := 67,
    avgTransitDays := some 3 }

/-- The expected distribution entry for carrier B. -/
def c3EntryB : CourierDistribution :=
  { carrierCode := "B", carrierName := "Carrier B", count := 1, percentage := 33,
    avgTransitDays := none }

/-- Claim C3: on the example snapshot getCourierDistribution yields
exactly the two documented entries, and in general every produced entry
has count equal to the number of snapshot members with its carrier code,
percentage equal to the rounding of count over total times one hundred,
and average transit days equal to the rounded mean over the members that
are delivered with positive transit days — absent when none qualifies. -/
theorem c3_courierDistribution_correct :
    getCourierDistribution c3Snapshot = [c3EntryA, c3EntryB] ∧
    ∀ (ts : List Tracking) (d : CourierDistribution), d ∈ getCourierDistribution ts →
      d.count = countCode d.carrierCode ts ∧
      d.percentage = jsRound (((countCode d.carrierCode ts : ℚ) / (ts.length : ℚ)) * 100) ∧
      d.avgTransitDays = (if qualCount d.carrierCode ts = 0 then none
        else some (jsRound ((qualSum d.carrierCode ts : ℚ) /
          (qualCount d.carrierCode ts : ℚ)))) := by
  constructor
  · have hb : buildGroups c3Snapshot =
        [("A", { name := "Carrier A", count := 2, totalTransitDays := 6, deliveredCount := 2 }),
         ("B", { name := "Carrier B", count := 1, totalTransitDays := 0,
                 deliveredCount := 0 })] := by decide
    unfold getCourierDistribution
    rw [if_neg (by decide), hb]
    have hlen : c3Snapshot.length = 3 := rfl
    simp only [List.map_cons, List.map_nil, hlen]
    norm_num [c3EntryA, c3EntryB, jsRound]
  · intro ts d hd
    unfold getCourierDistribution at hd
    by_cases hlen : ts.length = 0
    · rw [if_pos hlen] at hd
      simp at hd
    · rw [if_neg hlen] at hd
      rcases List.mem_map.mp hd with ⟨⟨code, g⟩, hmem, rfl⟩
      have hlk : lookupAcc code (buildGroups ts) = some g :=
        mem_lookupAcc _ (keys_nodup_buildGroups ts) code g hmem
      rw [lookupAcc_buildGroups] at hlk
      simp only [mergeAcc] at hlk
      by_cases hc : countCode code ts = 0
      · rw [if_pos hc] at hlk
        exact absurd hlk (by simp)
      · rw [if_neg hc] at hlk
        injection hlk with hlk
        subst hlk
        refine ⟨rfl, rfl, ?_⟩
        by_cases hq : qualCount code ts = 0
        · simp [hq]
        · simp [hq, Nat.pos_of_ne_zero hq]

/-- Witness for C3: the carrier-A entry is produced on the concrete
snapshot and satisfies the general count, percentage and average
formulas there. -/
theorem c3_witness :
    c3EntryA.count = countCode c3EntryA.carrierCode c3Snapshot ∧
    c3EntryA.percentage =
      jsRound (((countCode c3EntryA.carrierCode c3Snapshot : ℚ) /
        (c3Snapshot.length : ℚ)) * 100) ∧
    c3EntryA.avgTransitDays = (if qualCount c3EntryA.carrierCode c3Snapshot = 0 then none
      else some (jsRound ((qualSum c3EntryA.carrierCode c3Snapshot : ℚ) /
        (qualCount c3EntryA.carrierCode c3Snapshot : ℚ)))) :=
  c3_courierDistribution_correct.2 c3Snapshot c3EntryA
    (c3_courierDistribution_correct.1.symm ▸ List.mem_cons_self c3EntryA [c3EntryB])
